import Mathlib

/-!
# mcc_sema4_linux.c : the MCC shared-memory gate

A shallow embedding of `src/mcc_sema4_linux.c`.  The module keeps two globals,
the hardware-semaphore handle `sema4` and the kernel semaphore `linux_mutex`,
and calls three external collaborators: the hardware-semaphore driver, the MSCM
interrupt controller (`mscm_enable_cpu2cpu_irq` / `mscm_disable_cpu2cpu_irq`) and
the kernel semaphore primitives (`down_killable` / `up`).

* Globals and the collaborators' observable state live in `World`.
* Every collaborator call is appended to the ghost log `World.trace`.
* The hardware-semaphore driver is not part of the repository: it is an
  arbitrary deterministic state machine `Driver σ`.
* The two `#if LINUX_VERSION_CODE >= KERNEL_VERSION(4, 4, 0)` branches are both
  embedded; `Config.LINUX_VERSION_CODE` selects between them.
* The busy-wait of `mcc_sema4_isr_grab` is bounded by a fuel argument that counts
  lock attempts.
-/

namespace MccSema4

/-! ## Constants -/

/-- Value of a `sema4` pointer that is not NULL; NULL is `Option.none`. -/
abbrev Handle := Nat

/-- Linux errno `EINTR`. -/
def EINTR : Int := 4

/-- Linux errno `EINVAL`. -/
def EINVAL : Int := 22

/-- The `TIME_PROTECT_US` define of the source. -/
def TIME_PROTECT_US : Nat := 10000000

/-- The Linux `KERNEL_VERSION(a, b, c)` macro: `(a << 16) + (b << 8) + c`. -/
def KERNEL_VERSION (a b c : Nat) : Nat := a * 65536 + b * 256 + c

/-- Compile-time constants that come from headers outside `src/`. -/
structure Config where
  /-- Kernel version the module is built against. -/
  LINUX_VERSION_CODE : Nat
  /-- Number of cross-core interrupt lines. -/
  MAX_MVF_CPU_TO_CPU_INTERRUPTS : Nat
  /-- Gate number used by the legacy driver. -/
  MVF_SHMEM_SEMAPHORE_NUMBER : Nat

/-! ## Collaborators -/

/-- One entry of the ghost log: a call made to a collaborator. -/
inductive Event where
  /-- Call of `down_killable(&linux_mutex)` together with its return value. -/
  | down_killable (ret : Int)
  /-- Call of `up(&linux_mutex)`. -/
  | up
  /-- Call of `mscm_disable_cpu2cpu_irq(i)`. -/
  | mscm_disable_cpu2cpu_irq (i : Nat)
  /-- Call of `mscm_enable_cpu2cpu_irq(i)`. -/
  | mscm_enable_cpu2cpu_irq (i : Nat)
  /-- Call of the driver's create (`vf610_sema4_mutex_create` or `mvf_sema4_assign`),
  with the value `sema4` holds afterwards. -/
  | sema4_create (res : Option Handle)
  /-- Call of the driver's destroy with the pointer passed. -/
  | sema4_destroy (h : Option Handle)
  /-- Call of the driver's lock with the pointer passed. -/
  | sema4_lock (h : Option Handle)
  /-- Call of the driver's unlock with the pointer passed. -/
  | sema4_unlock (h : Option Handle)
  deriving DecidableEq, Repr

/-- The hardware-semaphore driver, an external collaborator with private state `σ`.
Pointers are passed as `Option Handle` (NULL is `none`).  `mvf_sema4_assign` receives
the current value of `*sema4_p` and returns the value it leaves there. -/
structure Driver (σ : Type) where
  vf610_sema4_mutex_create : Nat → Nat → σ → Option Handle × σ
  vf610_sema4_mutex_destroy : Option Handle → σ → Int × σ
  vf610_sema4_mutex_lock : Option Handle → σ → Int × σ
  vf610_sema4_mutex_unlock : Option Handle → σ → Int × σ
  mvf_sema4_assign : Nat → Option Handle → σ → Int × Option Handle × σ
  mvf_sema4_deassign : Option Handle → σ → Int × σ
  mvf_sema4_lock : Option Handle → Nat → Bool → σ → Int × σ
  mvf_sema4_unlock : Option Handle → σ → Int × σ

/-- The module's globals and the observable state of its collaborators. -/
structure World (σ : Type) where
  /-- The `static ... *sema4` global. -/
  sema4 : Option Handle
  /-- Count of the kernel semaphore `linux_mutex` (`DEFINE_SEMAPHORE` starts it at 1). -/
  linux_mutex : Nat
  /-- Whether cross-core interrupt line `i` is enabled. -/
  irq_enabled : Nat → Bool
  /-- Private state of the hardware-semaphore driver. -/
  hw : σ
  /-- Ghost log of collaborator calls, oldest first. -/
  trace : List Event

/-- State right after module load: `sema4 = NULL`, `linux_mutex` free, empty log. -/
def World.boot {σ : Type} (hw : σ) (irq : Nat → Bool) : World σ :=
  { sema4 := none, linux_mutex := 1, irq_enabled := irq, hw := hw, trace := [] }

/-- Linux `down_killable` on a semaphore with the given count, as documented in
`kernel/locking/semaphore.c`: a free semaphore is taken at once; otherwise the caller
sleeps, and the sleep ends either with a fatal signal (`killed`, result `-EINTR`,
semaphore untouched) or with the holder's `up` handing the semaphore over (result 0).
Returns the return value and the new count. -/
def down_killable (killed : Bool) (count : Nat) : Int × Nat :=
  if 0 < count then (0, count - 1)
  else if killed then (-EINTR, count)
  else (0, count)

/-- Linux `up` on a semaphore nobody waits for. -/
def up (count : Nat) : Nat := count + 1

/-- The collaborator `mscm_disable_cpu2cpu_irq(i)`. -/
def mscm_disable_cpu2cpu_irq {σ : Type} (i : Nat) (w : World σ) : World σ :=
  { w with irq_enabled := Function.update w.irq_enabled i false,
           trace := w.trace ++ [Event.mscm_disable_cpu2cpu_irq i] }

/-- The collaborator `mscm_enable_cpu2cpu_irq(i)`. -/
def mscm_enable_cpu2cpu_irq {σ : Type} (i : Nat) (w : World σ) : World σ :=
  { w with irq_enabled := Function.update w.irq_enabled i true,
           trace := w.trace ++ [Event.mscm_enable_cpu2cpu_irq i] }

/-- The loop `for(i = 0; i < n; i++) f(i);`. -/
def for_each_irq {σ : Type} (f : Nat → World σ → World σ) (n : Nat) (w : World σ) : World σ :=
  (List.range n).foldl (fun acc i => f i acc) w

/-! ## The `#if` blocks that call the hardware-semaphore driver -/

/-- Lines 67-72: create the handle; gives the function's return value and the new state. -/
def hw_assign {σ : Type} (cfg : Config) (d : Driver σ) (w : World σ) : Int × World σ :=
  if cfg.LINUX_VERSION_CODE ≥ KERNEL_VERSION 4 4 0 then
    let r := d.vf610_sema4_mutex_create 0 0 w.hw
    (0, { w with sema4 := r.1, hw := r.2, trace := w.trace ++ [Event.sema4_create r.1] })
  else
    let r := d.mvf_sema4_assign cfg.MVF_SHMEM_SEMAPHORE_NUMBER w.sema4 w.hw
    (r.1, { w with sema4 := r.2.1, hw := r.2.2, trace := w.trace ++ [Event.sema4_create r.2.1] })

/-- Lines 77-81: the driver's destroy on the current `sema4`, passed by value. -/
def hw_destroy {σ : Type} (cfg : Config) (d : Driver σ) (w : World σ) : Int × World σ :=
  let r := if cfg.LINUX_VERSION_CODE ≥ KERNEL_VERSION 4 4 0
    then d.vf610_sema4_mutex_destroy w.sema4 w.hw
    else d.mvf_sema4_deassign w.sema4 w.hw
  (r.1, { w with hw := r.2, trace := w.trace ++ [Event.sema4_destroy w.sema4] })

/-- Lines 100-104: the blocking lock attempt of `mcc_sema4_grab`. -/
def hw_lock {σ : Type} (cfg : Config) (d : Driver σ) (w : World σ) : Int × World σ :=
  let r := if cfg.LINUX_VERSION_CODE ≥ KERNEL_VERSION 4 4 0
    then d.vf610_sema4_mutex_lock w.sema4 w.hw
    else d.mvf_sema4_lock w.sema4 TIME_PROTECT_US true w.hw
  (r.1, { w with hw := r.2, trace := w.trace ++ [Event.sema4_lock w.sema4] })

/-- Lines 144-149: one lock attempt of the spin loop of `mcc_sema4_isr_grab`. -/
def hw_lock_isr {σ : Type} (cfg : Config) (d : Driver σ) (w : World σ) : Int × World σ :=
  let r := if cfg.LINUX_VERSION_CODE ≥ KERNEL_VERSION 4 4 0
    then d.vf610_sema4_mutex_lock w.sema4 w.hw
    else d.mvf_sema4_lock w.sema4 0 false w.hw
  (r.1, { w with hw := r.2, trace := w.trace ++ [Event.sema4_lock w.sema4] })

/-- Lines 114-118 and 158-162: the driver's unlock on the current `sema4`. -/
def hw_unlock {σ : Type} (cfg : Config) (d : Driver σ) (w : World σ) : Int × World σ :=
  let r := if cfg.LINUX_VERSION_CODE ≥ KERNEL_VERSION 4 4 0
    then d.vf610_sema4_mutex_unlock w.sema4 w.hw
    else d.mvf_sema4_unlock w.sema4 w.hw
  (r.1, { w with hw := r.2, trace := w.trace ++ [Event.sema4_unlock w.sema4] })

/-! ## The six entry points -/

/-- `int mcc_sema4_assign(void)`. -/
def mcc_sema4_assign {σ : Type} (cfg : Config) (d : Driver σ) (w : World σ) : Int × World σ :=
  hw_assign cfg d w

/-- `int mcc_sema4_deassign(void)`. -/
def mcc_sema4_deassign {σ : Type} (cfg : Config) (d : Driver σ) (w : World σ) : Int × World σ :=
  hw_destroy cfg d w

/-- `int mcc_sema4_grab(void)`; `killed` says whether a fatal signal ends the sleep in
`down_killable`, should the caller have to sleep. -/
def mcc_sema4_grab {σ : Type} (cfg : Config) (d : Driver σ) (killed : Bool) (w : World σ) :
    Int × World σ :=
  if w.sema4 = none then (-EINVAL, w)
  else
    let dk := down_killable killed w.linux_mutex
    let w1 := { w with linux_mutex := dk.2, trace := w.trace ++ [Event.down_killable dk.1] }
    if dk.1 = EINTR then (-EINTR, w1)
    else hw_lock cfg d (for_each_irq mscm_disable_cpu2cpu_irq cfg.MAX_MVF_CPU_TO_CPU_INTERRUPTS w1)

/-- `int mcc_sema4_release(void)`. -/
def mcc_sema4_release {σ : Type} (cfg : Config) (d : Driver σ) (w : World σ) : Int × World σ :=
  if w.sema4 = none then (-EINVAL, w)
  else
    let r := hw_unlock cfg d w
    let w2 := for_each_irq mscm_enable_cpu2cpu_irq cfg.MAX_MVF_CPU_TO_CPU_INTERRUPTS r.2
    (r.1, { w2 with linux_mutex := up w2.linux_mutex, trace := w2.trace ++ [Event.up] })

/-- Lines 131-142 of `mcc_sema4_isr_grab`: the lazy creation.  `Except.error` carries an
early `return`. -/
def isr_lazy_bind {σ : Type} (cfg : Config) (d : Driver σ) (w : World σ) :
    Except (Int × World σ) (World σ) :=
  if w.sema4 = none then
    let r := hw_assign cfg d w
    if cfg.LINUX_VERSION_CODE ≥ KERNEL_VERSION 4 4 0 then
      if r.2.sema4 = none then Except.error (-EINVAL, r.2) else Except.ok r.2
    else
      if r.1 ≠ 0 then Except.error (r.1, r.2) else Except.ok r.2
  else Except.ok w

/-- The loop `while(lock(sema4)) {};` with at most `fuel` lock attempts; `none` when the
fuel runs out before an attempt returns 0. -/
def isr_spin {σ : Type} (cfg : Config) (d : Driver σ) : Nat → World σ → Option (World σ)
  | 0, _ => none
  | fuel + 1, w =>
    let r := hw_lock_isr cfg d w
    if r.1 ≠ 0 then isr_spin cfg d fuel r.2 else some r.2

/-- `int mcc_sema4_isr_grab(void)` with at most `fuel` lock attempts. -/
def mcc_sema4_isr_grab {σ : Type} (cfg : Config) (d : Driver σ) (fuel : Nat) (w : World σ) :
    Option (Int × World σ) :=
  match isr_lazy_bind cfg d w with
  | Except.error e => some e
  | Except.ok w1 => (isr_spin cfg d fuel w1).map (fun w2 => (0, w2))

/-- `int mcc_sema4_isr_release(void)`. -/
def mcc_sema4_isr_release {σ : Type} (cfg : Config) (d : Driver σ) (w : World σ) :
    Int × World σ :=
  if w.sema4 = none then (-EINVAL, w)
  else hw_unlock cfg d w

/-! ## Concrete collaborators used to evaluate the code -/

/-- A small driver.  Its state counts the lock attempts that will still fail with
-16 (`-EBUSY`); create yields `created` (the legacy create fails with -12 when that is
NULL and then leaves `*sema4_p` alone); unlock returns `unlockRet`; destroy returns
`destroyNull` for a NULL pointer and 0 otherwise. -/
def simDriver (created : Option Handle) (unlockRet destroyNull : Int) : Driver Nat where
  vf610_sema4_mutex_create _ _ n := (created, n)
  vf610_sema4_mutex_destroy h n := (if h = none then destroyNull else 0, n)
  vf610_sema4_mutex_lock _ n := (if n = 0 then 0 else -16, n - 1)
  vf610_sema4_mutex_unlock _ n := (unlockRet, n)
  mvf_sema4_assign _ p n :=
    (if created = none then -12 else 0, (if created = none then p else created), n)
  mvf_sema4_deassign h n := (if h = none then destroyNull else 0, n)
  mvf_sema4_lock _ _ _ n := (if n = 0 then 0 else -16, n - 1)
  mvf_sema4_unlock _ n := (unlockRet, n)

/-- Build for a 4.4 kernel (new driver API) with four interrupt lines. -/
def cfgNew : Config :=
  { LINUX_VERSION_CODE := KERNEL_VERSION 4 4 0, MAX_MVF_CPU_TO_CPU_INTERRUPTS := 4,
    MVF_SHMEM_SEMAPHORE_NUMBER := 1 }

/-- Build for a 3.0 kernel (legacy driver API) with four interrupt lines. -/
def cfgOld : Config :=
  { LINUX_VERSION_CODE := KERNEL_VERSION 3 0 15, MAX_MVF_CPU_TO_CPU_INTERRUPTS := 4,
    MVF_SHMEM_SEMAPHORE_NUMBER := 1 }

/-- All interrupt lines enabled. -/
def allEnabled : Nat → Bool := fun _ => true

/-- Whether a logged call went to the hardware-semaphore driver (and so neither to the
host lock nor to the interrupt controller). -/
def Event.is_driver_call : Event → Bool
  | Event.sema4_create _ => true
  | Event.sema4_destroy _ => true
  | Event.sema4_lock _ => true
  | Event.sema4_unlock _ => true
  | _ => false

/-- Whether a logged call is the driver's create. -/
def Event.is_create : Event → Bool
  | Event.sema4_create _ => true
  | _ => false

/-- Number of create calls in a log. -/
def creations (t : List Event) : Nat := t.countP Event.is_create

/-- One whole call made by a blocking caller: `mcc_sema4_grab` (with whether a fatal
signal ends its sleep in `down_killable`) or `mcc_sema4_release`. -/
inductive Call where
  | grab (caller : Nat) (killed : Bool)
  | release (caller : Nat)
  deriving DecidableEq, Repr

/-- Whether a call is free of fatal signals. -/
def Call.signal_free : Call → Bool
  | Call.grab _ killed => !killed
  | Call.release _ => true

/-- The module's state together with the callers that are between a return of
`mcc_sema4_grab` with 0 and their matching `mcc_sema4_release`. -/
structure Sched (σ : Type) where
  world : World σ
  holders : List Nat

/-- Run one call of a schedule as a whole.  A grab whose caller would sleep in
`down_killable` with no fatal signal (count 0, not killed) cannot return yet, so it cannot
be scheduled (`none`); neither can a grab by a caller that already holds, nor a release
by a caller that does not hold.  A grab that returns 0 makes its caller a holder; the
matching release ends that. -/
def Sched.step {σ : Type} (cfg : Config) (d : Driver σ) (s : Sched σ) : Call → Option (Sched σ)
  | Call.grab c killed =>
    if c ∈ s.holders then none
    else if s.world.linux_mutex = 0 ∧ killed = false then none
    else
      let r := mcc_sema4_grab cfg d killed s.world
      some { world := r.2, holders := if r.1 = 0 then c :: s.holders else s.holders }
  | Call.release c =>
    if c ∈ s.holders then
      some { world := (mcc_sema4_release cfg d s.world).2, holders := s.holders.erase c }
    else none

/-- Run a schedule, one whole call after the other. -/
def Sched.run {σ : Type} (cfg : Config) (d : Driver σ) : Sched σ → List Call → Option (Sched σ)
  | s, [] => some s
  | s, c :: cs =>
    match Sched.step cfg d s c with
    | none => none
    | some s' => Sched.run cfg d s' cs

/-! ## Lemmas about the interrupt loops -/

theorem for_each_irq_succ {σ : Type} (f : Nat → World σ → World σ) (n : Nat) (w : World σ) :
    for_each_irq f (n + 1) w = f n (for_each_irq f n w) := by
  simp [for_each_irq, List.range_succ, List.foldl_append]

theorem disable_loop_sema4 {σ : Type} (n : Nat) (w : World σ) :
    (for_each_irq mscm_disable_cpu2cpu_irq n w).sema4 = w.sema4 := by
  induction n with
  | zero => rfl
  | succ k ih => rw [for_each_irq_succ]; exact ih

theorem disable_loop_hw {σ : Type} (n : Nat) (w : World σ) :
    (for_each_irq mscm_disable_cpu2cpu_irq n w).hw = w.hw := by
  induction n with
  | zero => rfl
  | succ k ih => rw [for_each_irq_succ]; exact ih

theorem disable_loop_mutex {σ : Type} (n : Nat) (w : World σ) :
    (for_each_irq mscm_disable_cpu2cpu_irq n w).linux_mutex = w.linux_mutex := by
  induction n with
  | zero => rfl
  | succ k ih => rw [for_each_irq_succ]; exact ih

theorem disable_loop_trace {σ : Type} (n : Nat) (w : World σ) :
    (for_each_irq mscm_disable_cpu2cpu_irq n w).trace
      = w.trace ++ (List.range n).map Event.mscm_disable_cpu2cpu_irq := by
  induction n with
  | zero => simp [for_each_irq]
  | succ k ih =>
    rw [for_each_irq_succ]
    simp [mscm_disable_cpu2cpu_irq, ih, List.range_succ]

theorem disable_loop_irq {σ : Type} (n : Nat) (w : World σ) (i : Nat) :
    (for_each_irq mscm_disable_cpu2cpu_irq n w).irq_enabled i
      = if i < n then false else w.irq_enabled i := by
  induction n with
  | zero => simp [for_each_irq]
  | succ k ih =>
    rw [for_each_irq_succ]
    by_cases hik : i = k
    · subst hik; simp [mscm_disable_cpu2cpu_irq]
    · have h1 : (i < k + 1) = (i < k) := by
        apply propext; constructor <;> intro h <;> omega
      simp only [mscm_disable_cpu2cpu_irq, Function.update_noteq hik, ih, h1]

theorem enable_loop_sema4 {σ : Type} (n : Nat) (w : World σ) :
    (for_each_irq mscm_enable_cpu2cpu_irq n w).sema4 = w.sema4 := by
  induction n with
  | zero => rfl
  | succ k ih => rw [for_each_irq_succ]; exact ih

theorem enable_loop_hw {σ : Type} (n : Nat) (w : World σ) :
    (for_each_irq mscm_enable_cpu2cpu_irq n w).hw = w.hw := by
  induction n with
  | zero => rfl
  | succ k ih => rw [for_each_irq_succ]; exact ih

theorem enable_loop_mutex {σ : Type} (n : Nat) (w : World σ) :
    (for_each_irq mscm_enable_cpu2cpu_irq n w).linux_mutex = w.linux_mutex := by
  induction n with
  | zero => rfl
  | succ k ih => rw [for_each_irq_succ]; exact ih

theorem enable_loop_trace {σ : Type} (n : Nat) (w : World σ) :
    (for_each_irq mscm_enable_cpu2cpu_irq n w).trace
      = w.trace ++ (List.range n).map Event.mscm_enable_cpu2cpu_irq := by
  induction n with
  | zero => simp [for_each_irq]
  | succ k ih =>
    rw [for_each_irq_succ]
    simp [mscm_enable_cpu2cpu_irq, ih, List.range_succ]

theorem enable_loop_irq {σ : Type} (n : Nat) (w : World σ) (i : Nat) :
    (for_each_irq mscm_enable_cpu2cpu_irq n w).irq_enabled i
      = if i < n then true else w.irq_enabled i := by
  induction n with
  | zero => simp [for_each_irq]
  | succ k ih =>
    rw [for_each_irq_succ]
    by_cases hik : i = k
    · subst hik; simp [mscm_enable_cpu2cpu_irq]
    · have h1 : (i < k + 1) = (i < k) := by
        apply propext; constructor <;> intro h <;> omega
      simp only [mscm_enable_cpu2cpu_irq, Function.update_noteq hik, ih, h1]

/-! ## The blocking protocol -/

/-- C6: with a bound handle and a host lock acquired without interruption,
`mcc_sema4_grab` calls, in this order, `down_killable`, the disable of every line
`0 .. MAX_MVF_CPU_TO_CPU_INTERRUPTS - 1` in increasing order and one hardware lock; it
returns the lock's code unchanged, whatever it is, and leaves the host lock taken (count
lowered, no `up`) and every line disabled. -/
theorem grab_acquired_protocol {σ : Type} (cfg : Config) (d : Driver σ) (killed : Bool)
    (w : World σ) (h : Handle) (hb : w.sema4 = some h)
    (hacq : 0 < w.linux_mutex ∨ killed = false) :
    (mcc_sema4_grab cfg d killed w).1
        = (if cfg.LINUX_VERSION_CODE ≥ KERNEL_VERSION 4 4 0
            then d.vf610_sema4_mutex_lock (some h) w.hw
            else d.mvf_sema4_lock (some h) TIME_PROTECT_US true w.hw).1
      ∧ (mcc_sema4_grab cfg d killed w).2.trace
        = w.trace ++ [Event.down_killable 0]
            ++ (List.range cfg.MAX_MVF_CPU_TO_CPU_INTERRUPTS).map Event.mscm_disable_cpu2cpu_irq
            ++ [Event.sema4_lock (some h)]
      ∧ (mcc_sema4_grab cfg d killed w).2.linux_mutex = w.linux_mutex - 1
      ∧ (w.linux_mutex ≤ 1 → (mcc_sema4_grab cfg d killed w).2.linux_mutex = 0)
      ∧ (∀ i, i < cfg.MAX_MVF_CPU_TO_CPU_INTERRUPTS →
          (mcc_sema4_grab cfg d killed w).2.irq_enabled i = false)
      ∧ (mcc_sema4_grab cfg d killed w).2.sema4 = some h := by
  have hdk : down_killable killed w.linux_mutex = (0, w.linux_mutex - 1) := by
    unfold down_killable
    rcases hacq with hc | hk
    · simp [hc]
    · subst hk
      by_cases hc : 0 < w.linux_mutex
      · simp [hc]
      · have : w.linux_mutex = 0 := by omega
        simp [this]
  have hne : ¬ ((0 : Int) = EINTR) := by decide
  have hgrab : mcc_sema4_grab cfg d killed w
      = hw_lock cfg d (for_each_irq mscm_disable_cpu2cpu_irq cfg.MAX_MVF_CPU_TO_CPU_INTERRUPTS
          { w with linux_mutex := w.linux_mutex - 1,
                   trace := w.trace ++ [Event.down_killable 0] }) := by
    simp [mcc_sema4_grab, hb, hdk, hne]
  rw [hgrab]
  refine ⟨?_, ?_, ?_, ?_, ?_, ?_⟩
  · simp only [hw_lock, disable_loop_sema4, disable_loop_hw, hb]
  · simp only [hw_lock, disable_loop_sema4, disable_loop_trace, hb]
  · simp only [hw_lock, disable_loop_mutex]
  · intro hle
    simp only [hw_lock, disable_loop_mutex]
    omega
  · intro i hi
    simp only [hw_lock, disable_loop_irq, hi, if_true]
  · simp only [hw_lock, disable_loop_sema4, hb]

/-- Witness of C6 on a 4.4 build whose hardware lock fails with -16. -/
theorem grab_acquired_protocol_witness :
    (mcc_sema4_grab cfgNew (simDriver (some 7) 0 0) false
        { sema4 := some 7, linux_mutex := 1, irq_enabled := allEnabled, hw := 1, trace := [] }).1
        = -16
      ∧ (mcc_sema4_grab cfgNew (simDriver (some 7) 0 0) false
        { sema4 := some 7, linux_mutex := 1, irq_enabled := allEnabled, hw := 1, trace := [] }).2.trace
        = [Event.down_killable 0, Event.mscm_disable_cpu2cpu_irq 0,
           Event.mscm_disable_cpu2cpu_irq 1, Event.mscm_disable_cpu2cpu_irq 2,
           Event.mscm_disable_cpu2cpu_irq 3, Event.sema4_lock (some 7)] := by
  have t := grab_acquired_protocol cfgNew (simDriver (some 7) 0 0) false
    { sema4 := some 7, linux_mutex := 1, irq_enabled := allEnabled, hw := 1, trace := [] } 7 rfl
    (Or.inl (by decide))
  exact ⟨t.1, t.2.1⟩

/-- C5: with a bound handle `mcc_sema4_release` calls, in this order, the hardware
unlock, the enable of every line `0 .. MAX_MVF_CPU_TO_CPU_INTERRUPTS - 1` in increasing
order and `up` on the host lock; it returns the unlock's code unchanged, whatever it is. -/
theorem release_protocol {σ : Type} (cfg : Config) (d : Driver σ) (w : World σ) (h : Handle)
    (hb : w.sema4 = some h) :
    (mcc_sema4_release cfg d w).1
        = (if cfg.LINUX_VERSION_CODE ≥ KERNEL_VERSION 4 4 0
            then d.vf610_sema4_mutex_unlock (some h) w.hw
            else d.mvf_sema4_unlock (some h) w.hw).1
      ∧ (mcc_sema4_release cfg d w).2.trace
        = w.trace ++ [Event.sema4_unlock (some h)]
            ++ (List.range cfg.MAX_MVF_CPU_TO_CPU_INTERRUPTS).map Event.mscm_enable_cpu2cpu_irq
            ++ [Event.up]
      ∧ (mcc_sema4_release cfg d w).2.linux_mutex = w.linux_mutex + 1
      ∧ (∀ i, i < cfg.MAX_MVF_CPU_TO_CPU_INTERRUPTS →
          (mcc_sema4_release cfg d w).2.irq_enabled i = true)
      ∧ (mcc_sema4_release cfg d w).2.sema4 = some h := by
  have hrel : mcc_sema4_release cfg d w
      = ((hw_unlock cfg d w).1,
         { for_each_irq mscm_enable_cpu2cpu_irq cfg.MAX_MVF_CPU_TO_CPU_INTERRUPTS (hw_unlock cfg d w).2 with
           linux_mutex := up (for_each_irq mscm_enable_cpu2cpu_irq
              cfg.MAX_MVF_CPU_TO_CPU_INTERRUPTS (hw_unlock cfg d w).2).linux_mutex,
           trace := (for_each_irq mscm_enable_cpu2cpu_irq
              cfg.MAX_MVF_CPU_TO_CPU_INTERRUPTS (hw_unlock cfg d w).2).trace ++ [Event.up] }) := by
    simp [mcc_sema4_release, hb]
  rw [hrel]
  refine ⟨?_, ?_, ?_, ?_, ?_⟩
  · simp only [hw_unlock, hb]
  · simp only [hw_unlock, enable_loop_trace, hb]
  · simp only [hw_unlock, enable_loop_mutex, up]
  · intro i hi
    simp only [enable_loop_irq, hi, if_true]
  · simp only [hw_unlock, enable_loop_sema4, hb]

/-- Witness of C5 on a 4.4 build whose hardware unlock fails with -22. -/
theorem release_protocol_witness :
    (mcc_sema4_release cfgNew (simDriver (some 7) (-22) 0)
        { sema4 := some 7, linux_mutex := 0, irq_enabled := fun _ => false, hw := 0, trace := [] }).1
        = -22
      ∧ (mcc_sema4_release cfgNew (simDriver (some 7) (-22) 0)
        { sema4 := some 7, linux_mutex := 0, irq_enabled := fun _ => false, hw := 0, trace := [] }).2.trace
        = [Event.sema4_unlock (some 7), Event.mscm_enable_cpu2cpu_irq 0,
           Event.mscm_enable_cpu2cpu_irq 1, Event.mscm_enable_cpu2cpu_irq 2,
           Event.mscm_enable_cpu2cpu_irq 3, Event.up] := by
  have t := release_protocol cfgNew (simDriver (some 7) (-22) 0)
    { sema4 := some 7, linux_mutex := 0, irq_enabled := fun _ => false, hw := 0, trace := [] } 7 rfl
  exact ⟨t.1, t.2.1⟩

/-! ## Lemmas about the interrupt-context protocol -/

theorem hw_assign_frame {σ : Type} (cfg : Config) (d : Driver σ) (w : World σ) :
    (hw_assign cfg d w).2.linux_mutex = w.linux_mutex
      ∧ (hw_assign cfg d w).2.irq_enabled = w.irq_enabled
      ∧ (hw_assign cfg d w).2.trace
          = w.trace ++ [Event.sema4_create (hw_assign cfg d w).2.sema4] := by
  unfold hw_assign
  split <;> simp

theorem hw_lock_isr_frame {σ : Type} (cfg : Config) (d : Driver σ) (w : World σ) :
    (hw_lock_isr cfg d w).2.sema4 = w.sema4
      ∧ (hw_lock_isr cfg d w).2.linux_mutex = w.linux_mutex
      ∧ (hw_lock_isr cfg d w).2.irq_enabled = w.irq_enabled
      ∧ (hw_lock_isr cfg d w).2.trace = w.trace ++ [Event.sema4_lock w.sema4] := by
  simp [hw_lock_isr]

theorem isr_spin_spec {σ : Type} (cfg : Config) (d : Driver σ) :
    ∀ (fuel : Nat) (w w' : World σ), isr_spin cfg d fuel w = some w' →
      w'.sema4 = w.sema4 ∧ w'.linux_mutex = w.linux_mutex ∧ w'.irq_enabled = w.irq_enabled
        ∧ ∃ k, 1 ≤ k ∧ k ≤ fuel
            ∧ w'.trace = w.trace ++ List.replicate k (Event.sema4_lock w.sema4) := by
  intro fuel
  induction fuel with
  | zero => intro w w' h; simp [isr_spin] at h
  | succ n ih =>
    intro w w' h
    obtain ⟨f1, f2, f3, f4⟩ := hw_lock_isr_frame cfg d w
    by_cases hr : (hw_lock_isr cfg d w).1 ≠ 0
    · have h2 : isr_spin cfg d n (hw_lock_isr cfg d w).2 = some w' := by
        simpa [isr_spin, hr] using h
      obtain ⟨g1, g2, g3, k, hk1, hk2, g4⟩ := ih _ _ h2
      refine ⟨g1.trans f1, g2.trans f2, g3.trans f3, k + 1, by omega, by omega, ?_⟩
      rw [g4, f4, f1, List.append_assoc]
      rfl
    · have h2 : (hw_lock_isr cfg d w).2 = w' := by
        simpa [isr_spin, hr] using h
      subst h2
      exact ⟨f1, f2, f3, 1, by omega, by omega, by rw [f4]; rfl⟩

theorem isr_lazy_bind_bound {σ : Type} (cfg : Config) (d : Driver σ) (w : World σ)
    (hs : w.sema4 ≠ none) : isr_lazy_bind cfg d w = Except.ok w := by
  simp [isr_lazy_bind, hs]

theorem isr_lazy_bind_null {σ : Type} (cfg : Config) (d : Driver σ) (w : World σ)
    (hs : w.sema4 = none) :
    (∃ r, isr_lazy_bind cfg d w = Except.error (r, (hw_assign cfg d w).2))
      ∨ isr_lazy_bind cfg d w = Except.ok (hw_assign cfg d w).2 := by
  unfold isr_lazy_bind
  simp only [hs, if_true]
  split
  · split
    · exact Or.inl ⟨_, rfl⟩
    · exact Or.inr rfl
  · split
    · exact Or.inl ⟨_, rfl⟩
    · exact Or.inr rfl

theorem creations_replicate_lock (k : Nat) (p : Option Handle) :
    creations (List.replicate k (Event.sema4_lock p)) = 0 := by
  unfold creations
  rw [List.countP_eq_zero]
  intro e he
  rw [List.eq_of_mem_replicate he]
  simp [Event.is_create]

theorem isr_grab_spec {σ : Type} (cfg : Config) (d : Driver σ) (fuel : Nat) (w : World σ)
    (r : Int) (w' : World σ) (h : mcc_sema4_isr_grab cfg d fuel w = some (r, w')) :
    w'.linux_mutex = w.linux_mutex ∧ w'.irq_enabled = w.irq_enabled
      ∧ ∃ t, w'.trace = w.trace ++ t ∧ (∀ e ∈ t, Event.is_driver_call e = true)
          ∧ creations t = (if w.sema4 = none then 1 else 0) := by
  unfold mcc_sema4_isr_grab at h
  have hspin : ∀ (w1 : World σ), (isr_spin cfg d fuel w1).map (fun w2 => ((0 : Int), w2))
        = some (r, w') →
      w'.linux_mutex = w1.linux_mutex ∧ w'.irq_enabled = w1.irq_enabled
        ∧ ∃ k, w'.trace = w1.trace ++ List.replicate k (Event.sema4_lock w1.sema4) := by
    intro w1 hm
    rw [Option.map_eq_some'] at hm
    obtain ⟨w2, hw2, heq⟩ := hm
    have hw' : w2 = w' := (Prod.mk.inj heq).2
    subst hw'
    obtain ⟨_, g2, g3, k, _, _, g4⟩ := isr_spin_spec cfg d fuel w1 w2 hw2
    exact ⟨g2, g3, k, g4⟩
  have hlock : ∀ (k : Nat) (p : Option Handle) (e : Event),
      e ∈ List.replicate k (Event.sema4_lock p) → Event.is_driver_call e = true := by
    intro k p e he
    rw [List.eq_of_mem_replicate he]
    rfl
  by_cases hs : w.sema4 = none
  · obtain ⟨a1, a2, a3⟩ := hw_assign_frame cfg d w
    rcases isr_lazy_bind_null cfg d w hs with ⟨r0, hb⟩ | hb
    · rw [hb] at h
      have hw' : (hw_assign cfg d w).2 = w' := (Prod.mk.inj (Option.some.inj h)).2
      subst hw'
      refine ⟨a1, a2, _, a3, ?_, ?_⟩
      · intro e he
        rw [List.mem_singleton] at he
        rw [he]; rfl
      · simp [hs, creations, Event.is_create]
    · rw [hb] at h
      obtain ⟨g2, g3, k, g4⟩ := hspin _ h
      refine ⟨g2.trans a1, g3.trans a2,
        [Event.sema4_create (hw_assign cfg d w).2.sema4]
          ++ List.replicate k (Event.sema4_lock (hw_assign cfg d w).2.sema4), ?_, ?_, ?_⟩
      · rw [g4, a3, List.append_assoc]
      · intro e he
        rcases List.mem_append.mp he with he | he
        · rw [List.mem_singleton] at he
          rw [he]; rfl
        · exact hlock _ _ _ he
      · have hc := creations_replicate_lock k (hw_assign cfg d w).2.sema4
        unfold creations at hc ⊢
        rw [List.countP_append, hc]
        simp [hs, Event.is_create]
  · rw [isr_lazy_bind_bound cfg d w hs] at h
    obtain ⟨g2, g3, k, g4⟩ := hspin _ h
    refine ⟨g2, g3, _, g4, hlock _ _, ?_⟩
    rw [creations_replicate_lock]
    simp [hs]

theorem isr_spin_fuel_mono {σ : Type} (cfg : Config) (d : Driver σ) :
    ∀ (fuel : Nat) (w w' : World σ), isr_spin cfg d fuel w = some w' →
      ∀ extra, isr_spin cfg d (fuel + extra) w = some w' := by
  intro fuel
  induction fuel with
  | zero => intro w w' h; simp [isr_spin] at h
  | succ n ih =>
    intro w w' h extra
    have he : n + 1 + extra = (n + extra) + 1 := by omega
    rw [he]
    by_cases hr : (hw_lock_isr cfg d w).1 ≠ 0
    · have h2 : isr_spin cfg d n (hw_lock_isr cfg d w).2 = some w' := by
        simpa [isr_spin, hr] using h
      simpa [isr_spin, hr] using ih _ _ h2 extra
    · have h2 : (hw_lock_isr cfg d w).2 = w' := by
        simpa [isr_spin, hr] using h
      simpa [isr_spin, hr] using h2

/-- More fuel never changes what `mcc_sema4_isr_grab` returns. -/
theorem isr_grab_fuel_mono {σ : Type} (cfg : Config) (d : Driver σ) (fuel extra : Nat)
    (w : World σ) (x : Int × World σ) (h : mcc_sema4_isr_grab cfg d fuel w = some x) :
    mcc_sema4_isr_grab cfg d (fuel + extra) w = some x := by
  unfold mcc_sema4_isr_grab at h ⊢
  cases hb : isr_lazy_bind cfg d w with
  | error e => rw [hb] at h; exact h
  | ok w1 =>
    rw [hb] at h
    simp only [Option.map_eq_some'] at h ⊢
    obtain ⟨w2, hw2, heq⟩ := h
    exact ⟨w2, isr_spin_fuel_mono cfg d fuel w1 w2 hw2 extra, heq⟩


/-- With a bound handle whose lock is free at the first attempt, `mcc_sema4_isr_grab`
returns 0 for every positive fuel. -/
theorem isr_grab_returns_on_free_lock {σ : Type} (cfg : Config) (d : Driver σ) (fuel : Nat)
    (w : World σ) (hs : w.sema4 ≠ none) (hfree : (hw_lock_isr cfg d w).1 = 0) :
    mcc_sema4_isr_grab cfg d (fuel + 1) w = some (0, (hw_lock_isr cfg d w).2) := by
  simp [mcc_sema4_isr_grab, isr_lazy_bind_bound cfg d w hs, isr_spin, hfree]

/-! ## The interrupt-context protocol -/

/-- C9: `mcc_sema4_isr_grab`, whenever it returns, and `mcc_sema4_isr_release` leave the
host lock and the enable state of every interrupt line as they were, and every call they
make goes to the hardware-semaphore driver; with a bound handle
`mcc_sema4_isr_release` returns the code of the hardware unlock unchanged. -/
theorem isr_paths_frame {σ : Type} (cfg : Config) (d : Driver σ) (w : World σ) :
    (∀ fuel r w', mcc_sema4_isr_grab cfg d fuel w = some (r, w') →
        w'.linux_mutex = w.linux_mutex ∧ w'.irq_enabled = w.irq_enabled
          ∧ ∃ t, w'.trace = w.trace ++ t ∧ ∀ e ∈ t, Event.is_driver_call e = true)
      ∧ (mcc_sema4_isr_release cfg d w).2.linux_mutex = w.linux_mutex
      ∧ (mcc_sema4_isr_release cfg d w).2.irq_enabled = w.irq_enabled
      ∧ (∃ t, (mcc_sema4_isr_release cfg d w).2.trace = w.trace ++ t
          ∧ ∀ e ∈ t, Event.is_driver_call e = true)
      ∧ (∀ h, w.sema4 = some h →
          (mcc_sema4_isr_release cfg d w).1
            = (if cfg.LINUX_VERSION_CODE ≥ KERNEL_VERSION 4 4 0
                then d.vf610_sema4_mutex_unlock (some h) w.hw
                else d.mvf_sema4_unlock (some h) w.hw).1) := by
  refine ⟨?_, ?_, ?_, ?_, ?_⟩
  · intro fuel r w' h
    obtain ⟨g1, g2, t, g3, g4, _⟩ := isr_grab_spec cfg d fuel w r w' h
    exact ⟨g1, g2, t, g3, g4⟩
  · unfold mcc_sema4_isr_release
    split <;> simp [hw_unlock]
  · unfold mcc_sema4_isr_release
    split <;> simp [hw_unlock]
  · unfold mcc_sema4_isr_release
    by_cases hs : w.sema4 = none
    · exact ⟨[], by simp [hs], by simp⟩
    · refine ⟨[Event.sema4_unlock w.sema4], by simp [hs, hw_unlock], ?_⟩
      intro e he
      rw [List.mem_singleton] at he
      rw [he]; rfl
  · intro h hb
    simp [mcc_sema4_isr_release, hw_unlock, hb]

/-- Witness of C9: from the boot state, with a driver whose first two lock attempts
fail, `mcc_sema4_isr_grab` returns after three attempts. -/
theorem isr_paths_frame_witness :
    mcc_sema4_isr_grab cfgNew (simDriver (some 7) 0 0) 3 (World.boot 2 allEnabled)
        = some (0, { sema4 := some 7, linux_mutex := 1, irq_enabled := allEnabled, hw := 0,
                     trace := [Event.sema4_create (some 7), Event.sema4_lock (some 7),
                               Event.sema4_lock (some 7), Event.sema4_lock (some 7)] })
      ∧ (1 : Nat) = (World.boot 2 allEnabled).linux_mutex
      ∧ allEnabled = (World.boot 2 allEnabled).irq_enabled
      ∧ (mcc_sema4_isr_release cfgNew (simDriver (some 7) (-5) 0)
          { sema4 := some 7, linux_mutex := 0, irq_enabled := allEnabled, hw := 0,
            trace := [] }).1 = -5 :=
  have t1 := isr_paths_frame cfgNew (simDriver (some 7) 0 0) (World.boot 2 allEnabled)
  have t2 := isr_paths_frame cfgNew (simDriver (some 7) (-5) 0)
    { sema4 := some 7, linux_mutex := 0, irq_enabled := allEnabled, hw := 0, trace := [] }
  ⟨rfl, (t1.1 3 0 _ rfl).1, (t1.1 3 0 _ rfl).2.1, t2.2.2.2.2 7 rfl⟩

/-- C3, as amended: with `sema4` NULL, `mcc_sema4_grab`, `mcc_sema4_release` and
`mcc_sema4_isr_release` return `-EINVAL` and leave the whole state, log included, as it
was; `mcc_sema4_isr_grab` instead calls the driver's create once and, whenever it
returns, has left every interrupt line as it was and has called nothing but the
hardware-semaphore driver. -/
theorem null_handle_entry_points {σ : Type} (cfg : Config) (d : Driver σ) (killed : Bool)
    (w : World σ) (hs : w.sema4 = none) :
    mcc_sema4_grab cfg d killed w = (-EINVAL, w)
      ∧ mcc_sema4_release cfg d w = (-EINVAL, w)
      ∧ mcc_sema4_isr_release cfg d w = (-EINVAL, w)
      ∧ (∀ fuel r w', mcc_sema4_isr_grab cfg d fuel w = some (r, w') →
          w'.irq_enabled = w.irq_enabled
            ∧ ∃ t, w'.trace = w.trace ++ t ∧ (∀ e ∈ t, Event.is_driver_call e = true)
                ∧ creations t = 1) := by
  refine ⟨by simp [mcc_sema4_grab, hs], by simp [mcc_sema4_release, hs],
    by simp [mcc_sema4_isr_release, hs], ?_⟩
  intro fuel r w' h
  obtain ⟨_, g2, t, g3, g4, g5⟩ := isr_grab_spec cfg d fuel w r w' h
  exact ⟨g2, t, g3, g4, by simpa [hs] using g5⟩

/-- Witness of C3 as amended, at the boot state of a 4.4 build. -/
theorem null_handle_entry_points_witness :
    mcc_sema4_grab cfgNew (simDriver (some 7) 0 0) false (World.boot 0 allEnabled)
        = (-EINVAL, World.boot 0 allEnabled)
      ∧ mcc_sema4_release cfgNew (simDriver (some 7) 0 0) (World.boot 0 allEnabled)
        = (-EINVAL, World.boot 0 allEnabled)
      ∧ mcc_sema4_isr_release cfgNew (simDriver (some 7) 0 0) (World.boot 0 allEnabled)
        = (-EINVAL, World.boot 0 allEnabled)
      ∧ allEnabled = (World.boot 0 allEnabled).irq_enabled :=
  have t := null_handle_entry_points cfgNew (simDriver (some 7) 0 0) false
    (World.boot 0 allEnabled) rfl
  ⟨t.1, t.2.1, t.2.2.1,
   (t.2.2.2 1 0
      { sema4 := some 7, linux_mutex := 1, irq_enabled := allEnabled, hw := 0,
        trace := [Event.sema4_create (some 7), Event.sema4_lock (some 7)] } rfl).1⟩

/-- C3 fails as stated: at the boot state (`sema4` NULL) of a 4.4 build, with a driver
whose create and lock succeed, `mcc_sema4_isr_grab` returns 0, not `-EINVAL`, and
leaves the handle bound. -/
theorem isr_grab_boot_counterexample :
    (mcc_sema4_isr_grab cfgNew (simDriver (some 7) 0 0) 1 (World.boot 0 allEnabled)).map
        (fun x => (x.1, x.2.sema4)) = some (0, some 7)
      ∧ (mcc_sema4_isr_grab cfgNew (simDriver (some 7) 0 0) 1 (World.boot 0 allEnabled)).map
        (fun x => x.1) ≠ some (-EINVAL) := by
  constructor <;> decide

/-! ## Evaluations of the code where it departs from the specification -/

/-- C1, the code at the failing input: the handle is bound, another process holds
`linux_mutex` (count 0) and a fatal signal ends the sleep.  `down_killable` returns
`-EINTR`, which differs from the `EINTR` the code compares with, so `mcc_sema4_grab` goes
on: it disables all four lines, attempts the hardware lock and returns the lock's code 0
instead of `-EINTR`. -/
theorem grab_interrupted_evaluation :
    down_killable true 0 = (-EINTR, 0)
      ∧ (mcc_sema4_grab cfgNew (simDriver (some 7) 0 0) true
          { sema4 := some 7, linux_mutex := 0, irq_enabled := allEnabled, hw := 0,
            trace := [] }).1 = 0
      ∧ (mcc_sema4_grab cfgNew (simDriver (some 7) 0 0) true
          { sema4 := some 7, linux_mutex := 0, irq_enabled := allEnabled, hw := 0,
            trace := [] }).2.trace
        = [Event.down_killable (-4), Event.mscm_disable_cpu2cpu_irq 0,
           Event.mscm_disable_cpu2cpu_irq 1, Event.mscm_disable_cpu2cpu_irq 2,
           Event.mscm_disable_cpu2cpu_irq 3, Event.sema4_lock (some 7)]
      ∧ (List.range 4).map
          (mcc_sema4_grab cfgNew (simDriver (some 7) 0 0) true
            { sema4 := some 7, linux_mutex := 0, irq_enabled := allEnabled, hw := 0,
              trace := [] }).2.irq_enabled = [false, false, false, false]
      ∧ (mcc_sema4_grab cfgOld (simDriver (some 7) 0 0) true
          { sema4 := some 7, linux_mutex := 0, irq_enabled := allEnabled, hw := 0,
            trace := [] }).2.trace
        = [Event.down_killable (-4), Event.mscm_disable_cpu2cpu_irq 0,
           Event.mscm_disable_cpu2cpu_irq 1, Event.mscm_disable_cpu2cpu_irq 2,
           Event.mscm_disable_cpu2cpu_irq 3, Event.sema4_lock (some 7)] := by
  refine ⟨by decide, by decide, by decide, by decide, by decide⟩

/-- C2, the code at the failing input: from the boot state, assign, grab, release and
deassign all return 0, yet `sema4` still holds the destroyed handle, and the next
`mcc_sema4_grab` takes the host lock, disables the lines and locks that handle instead
of returning `-EINVAL`.  `mcc_sema4_deassign` never writes `sema4`, on either API. -/
theorem deassign_keeps_handle_evaluation :
    (∀ (cfg : Config) (d : Driver Nat) (w : World Nat),
        (mcc_sema4_deassign cfg d w).2.sema4 = w.sema4)
      ∧ (mcc_sema4_assign cfgNew (simDriver (some 7) 0 0) (World.boot 0 allEnabled)).1 = 0
      ∧ (mcc_sema4_grab cfgNew (simDriver (some 7) 0 0) false
          (mcc_sema4_assign cfgNew (simDriver (some 7) 0 0) (World.boot 0 allEnabled)).2).1 = 0
      ∧ (mcc_sema4_release cfgNew (simDriver (some 7) 0 0)
          (mcc_sema4_grab cfgNew (simDriver (some 7) 0 0) false
            (mcc_sema4_assign cfgNew (simDriver (some 7) 0 0)
              (World.boot 0 allEnabled)).2).2).1 = 0
      ∧ (mcc_sema4_deassign cfgNew (simDriver (some 7) 0 0)
          (mcc_sema4_release cfgNew (simDriver (some 7) 0 0)
            (mcc_sema4_grab cfgNew (simDriver (some 7) 0 0) false
              (mcc_sema4_assign cfgNew (simDriver (some 7) 0 0)
                (World.boot 0 allEnabled)).2).2).2).1 = 0
      ∧ (mcc_sema4_deassign cfgNew (simDriver (some 7) 0 0)
          (mcc_sema4_release cfgNew (simDriver (some 7) 0 0)
            (mcc_sema4_grab cfgNew (simDriver (some 7) 0 0) false
              (mcc_sema4_assign cfgNew (simDriver (some 7) 0 0)
                (World.boot 0 allEnabled)).2).2).2).2.sema4 = some 7
      ∧ (mcc_sema4_grab cfgNew (simDriver (some 7) 0 0) false
          (mcc_sema4_deassign cfgNew (simDriver (some 7) 0 0)
            (mcc_sema4_release cfgNew (simDriver (some 7) 0 0)
              (mcc_sema4_grab cfgNew (simDriver (some 7) 0 0) false
                (mcc_sema4_assign cfgNew (simDriver (some 7) 0 0)
                  (World.boot 0 allEnabled)).2).2).2).2).1 = 0
      ∧ ((mcc_sema4_grab cfgNew (simDriver (some 7) 0 0) false
          (mcc_sema4_deassign cfgNew (simDriver (some 7) 0 0)
            (mcc_sema4_release cfgNew (simDriver (some 7) 0 0)
              (mcc_sema4_grab cfgNew (simDriver (some 7) 0 0) false
                (mcc_sema4_assign cfgNew (simDriver (some 7) 0 0)
                  (World.boot 0 allEnabled)).2).2).2).2).2.trace.drop 14
        = [Event.down_killable 0, Event.mscm_disable_cpu2cpu_irq 0,
           Event.mscm_disable_cpu2cpu_irq 1, Event.mscm_disable_cpu2cpu_irq 2,
           Event.mscm_disable_cpu2cpu_irq 3, Event.sema4_lock (some 7)]) := by
  refine ⟨?_, by decide, by decide, by decide, by decide, by decide, by decide, by decide⟩
  intro cfg d w
  simp [mcc_sema4_deassign, hw_destroy]

/-- C7, the code at the failing input: on a 4.4 build whose `vf610_sema4_mutex_create`
returns NULL, `mcc_sema4_assign` returns 0 (success) and leaves `sema4` NULL; with the
new API it returns 0 whatever the driver does. -/
theorem assign_ignores_failed_create_evaluation :
    (mcc_sema4_assign cfgNew (simDriver none 0 0) (World.boot 0 allEnabled)).1 = 0
      ∧ (mcc_sema4_assign cfgNew (simDriver none 0 0) (World.boot 0 allEnabled)).2.sema4 = none
      ∧ (∀ (d : Driver Nat) (w : World Nat), (mcc_sema4_assign cfgNew d w).1 = 0) := by
  refine ⟨by decide, by decide, ?_⟩
  intro d w
  simp [mcc_sema4_assign, hw_assign, cfgNew]

/-- C8, the code at the failing input: at the boot state (`sema4` NULL)
`mcc_sema4_deassign` calls the driver's destroy with NULL and returns what the driver
returns: 0 with a driver that accepts NULL, `-EINVAL` only when the driver itself
rejects NULL.  On either API the destroy call is made whatever `sema4` holds. -/
theorem deassign_null_evaluation :
    (mcc_sema4_deassign cfgNew (simDriver (some 7) 0 0) (World.boot 0 allEnabled)).1 = 0
      ∧ (mcc_sema4_deassign cfgNew (simDriver (some 7) 0 0) (World.boot 0 allEnabled)).2.trace
        = [Event.sema4_destroy none]
      ∧ (mcc_sema4_deassign cfgNew (simDriver (some 7) 0 (-22)) (World.boot 0 allEnabled)).2.trace
        = [Event.sema4_destroy none]
      ∧ (mcc_sema4_deassign cfgOld (simDriver (some 7) 0 0) (World.boot 0 allEnabled)).2.trace
        = [Event.sema4_destroy none]
      ∧ (∀ (cfg : Config) (d : Driver Nat) (w : World Nat),
          (mcc_sema4_deassign cfg d w).2.trace = w.trace ++ [Event.sema4_destroy w.sema4]) := by
  refine ⟨by decide, by decide, by decide, by decide, ?_⟩
  intro cfg d w
  simp [mcc_sema4_deassign, hw_destroy]


/-! ## Concurrent blocking callers -/

theorem grab_mutex {σ : Type} (cfg : Config) (d : Driver σ) (killed : Bool) (w : World σ) :
    (mcc_sema4_grab cfg d killed w).2.linux_mutex
      = if w.sema4 = none then w.linux_mutex else (down_killable killed w.linux_mutex).2 := by
  unfold mcc_sema4_grab
  by_cases hs : w.sema4 = none
  · simp [hs]
  · simp only [hs, if_false]
    split
    · rfl
    · simp only [hw_lock, disable_loop_mutex]

theorem release_mutex {σ : Type} (cfg : Config) (d : Driver σ) (w : World σ) :
    (mcc_sema4_release cfg d w).2.linux_mutex
      = if w.sema4 = none then w.linux_mutex else w.linux_mutex + 1 := by
  unfold mcc_sema4_release
  by_cases hs : w.sema4 = none
  · simp [hs]
  · simp only [hs, if_false, enable_loop_mutex, hw_unlock, up]

/-- A call free of fatal signals keeps `holders + count ≤ 1`. -/
theorem step_signal_free_invariant {σ : Type} (cfg : Config) (d : Driver σ) (s s' : Sched σ)
    (c : Call) (hc : Call.signal_free c = true)
    (hinv : s.holders.length + s.world.linux_mutex ≤ 1)
    (hstep : Sched.step cfg d s c = some s') :
    s'.holders.length + s'.world.linux_mutex ≤ 1 := by
  cases c with
  | grab who killed =>
    have hk : killed = false := by simpa [Call.signal_free] using hc
    subst hk
    unfold Sched.step at hstep
    by_cases hmem : who ∈ s.holders
    · simp [hmem] at hstep
    · by_cases hz : s.world.linux_mutex = 0
      · simp [hmem, hz] at hstep
      · simp only [hmem, hz, if_false, false_and] at hstep
        have hs' := Option.some.inj hstep
        subst hs'
        have hone : s.world.linux_mutex = 1 := by omega
        have hnil : s.holders.length = 0 := by omega
        simp only [grab_mutex]
        by_cases hs : s.world.sema4 = none
        · simp only [hs, if_true]
          have hret : (mcc_sema4_grab cfg d false s.world).1 = -EINVAL := by
            simp [mcc_sema4_grab, hs]
          have hne : ¬ (-EINVAL = (0 : Int)) := by decide
          simp only [hret, hne, if_false]
          omega
        · simp only [hs, if_false]
          have hdk : (down_killable false s.world.linux_mutex).2 = 0 := by
            simp [down_killable, hone]
          rw [hdk]
          split
          · simp only [List.length_cons]; omega
          · omega
  | release who =>
    unfold Sched.step at hstep
    by_cases hmem : who ∈ s.holders
    · simp only [hmem, if_true] at hstep
      have hs' := Option.some.inj hstep
      subst hs'
      have hpos : 0 < s.holders.length := List.length_pos_of_mem hmem
      have hlen : (s.holders.erase who).length = s.holders.length - 1 :=
        List.length_erase_of_mem hmem
      simp only [release_mutex, hlen]
      split <;> omega
    · simp [hmem] at hstep

/-- Without fatal signals the code as written keeps blocking callers apart: from a state
with no holder and a free or taken `linux_mutex`, every schedule of whole calls leaves at
most one holder, for every driver and build. -/
theorem run_signal_free_exclusion {σ : Type} (cfg : Config) (d : Driver σ) :
    ∀ (calls : List Call) (s s' : Sched σ),
      (∀ c ∈ calls, Call.signal_free c = true) →
      s.holders.length + s.world.linux_mutex ≤ 1 →
      Sched.run cfg d s calls = some s' →
      s'.holders.length + s'.world.linux_mutex ≤ 1 := by
  intro calls
  induction calls with
  | nil =>
    intro s s' _ hinv hrun
    simp only [Sched.run] at hrun
    rw [← Option.some.inj hrun]
    exact hinv
  | cons c cs ih =>
    intro s s' hfree hinv hrun
    simp only [Sched.run] at hrun
    cases hstep : Sched.step cfg d s c with
    | none => rw [hstep] at hrun; simp at hrun
    | some s1 =>
      rw [hstep] at hrun
      exact ih s1 s' (fun x hx => hfree x (List.mem_cons_of_mem c hx))
        (step_signal_free_invariant cfg d s s1 c (hfree c (List.mem_cons_self c cs)) hinv hstep)
        hrun

/-- C4, the code at the failing input: after `mcc_sema4_assign` from the boot state,
caller 1 grabs (returns 0) and caller 2 then grabs while `linux_mutex` is taken and a
fatal signal ends its sleep.  Through the comparison with the positive `EINTR` the second
grab goes on and also returns 0: callers 2 and 1 are both between a grab that returned 0
and their release, with no release in the schedule. -/
theorem two_holders_evaluation :
    (Sched.run cfgNew (simDriver (some 7) 0 0)
        { world := (mcc_sema4_assign cfgNew (simDriver (some 7) 0 0)
            (World.boot 0 allEnabled)).2, holders := [] }
        [Call.grab 1 false, Call.grab 2 true]).map (fun s => s.holders) = some [2, 1]
      ∧ (Sched.run cfgOld (simDriver (some 7) 0 0)
        { world := (mcc_sema4_assign cfgOld (simDriver (some 7) 0 0)
            (World.boot 0 allEnabled)).2, holders := [] }
        [Call.grab 1 false, Call.grab 2 true]).map (fun s => s.holders) = some [2, 1]
      ∧ (Sched.run cfgNew (simDriver (some 7) 0 0)
        { world := (mcc_sema4_assign cfgNew (simDriver (some 7) 0 0)
            (World.boot 0 allEnabled)).2, holders := [] }
        [Call.grab 1 false, Call.grab 2 true]).map (fun s => s.world.trace.drop 7)
        = some [Event.down_killable (-4), Event.mscm_disable_cpu2cpu_irq 0,
                Event.mscm_disable_cpu2cpu_irq 1, Event.mscm_disable_cpu2cpu_irq 2,
                Event.mscm_disable_cpu2cpu_irq 3, Event.sema4_lock (some 7)]
      ∧ (Sched.run cfgNew (simDriver (some 7) 0 0)
        { world := (mcc_sema4_assign cfgNew (simDriver (some 7) 0 0)
            (World.boot 0 allEnabled)).2, holders := [] }
        [Call.grab 1 false, Call.grab 2 false]).map (fun s => s.holders) = none := by
  refine ⟨by decide, by decide, by decide, by decide⟩


end MccSema4
